import Mathlib

/-!
Verification development for the desktop-cleaner organization pipeline
(`src/categorizer.py`, `src/service.py`, `src/mover.py`, `src/scanner.py`).

The Python code is shallowly embedded: pure functions become Lean
functions over `String`, `List` and `Nat`; filesystem effects are made
explicit (an existence predicate for `Path.exists`, a state record for
`mkdir`, and result oracles indexed by attempt number for `shutil.move`
and `mkdir` as called by the orchestration loop); Python's unbounded
`while True` search loop is given an explicit fuel parameter, with
termination proved from the assumption that some candidate name is free.
-/

namespace DesktopCleaner

/-- Python `str.lower` on a single character, restricted to the ASCII
range that the source's extension table exercises: `A`-`Z` maps to
`a`-`z`, everything else is unchanged. -/
def pyLowerChar (c : Char) : Char :=
  if 65 ≤ c.toNat ∧ c.toNat ≤ 90 then Char.ofNat (c.toNat + 32) else c

/-- Python `str.upper` on a single character (ASCII range). -/
def pyUpperChar (c : Char) : Char :=
  if 97 ≤ c.toNat ∧ c.toNat ≤ 122 then Char.ofNat (c.toNat - 32) else c

/-- Python `str.lower` (ASCII): lowercases every character. -/
def pyLower (s : String) : String :=
  ⟨s.data.map pyLowerChar⟩

/-- Python `str.upper` (ASCII): uppercases every character. -/
def pyUpper (s : String) : String :=
  ⟨s.data.map pyUpperChar⟩

/-- Core of Python `pathlib.PurePath.suffix`, scanning the REVERSED
character list of the file name. `acc` holds the characters already seen,
i.e. the characters standing after the current position in the original
name. On the first `.` encountered (the LAST dot of the name), the dot
qualifies as a suffix separator iff it is neither the final character
(`acc ≠ []`) nor the first character (`rest ≠ []`); otherwise the suffix
is empty — exactly the `0 < i < len(name) - 1` check on `name.rfind('.')`
in CPython's implementation. -/
def pySuffixCore : List Char → List Char → List Char
  | _, [] => []
  | acc, c :: rest =>
    if c = '.' then
      (if acc ≠ [] ∧ rest ≠ [] then '.' :: acc else [])
    else pySuffixCore (c :: acc) rest

/-- Python `pathlib.PurePath.suffix` of a file name: the final
`.extension` component, or `""` when there is none. -/
def pySuffix (s : String) : String :=
  ⟨pySuffixCore [] s.data.reverse⟩

/-- Python `pathlib.PurePath.stem`: the file name with `pySuffix`
stripped from its end (`name[:-len(suffix)]`, the whole name when the
suffix is empty). -/
def pyStem (s : String) : String :=
  ⟨s.data.take (s.data.length - (pySuffix s).data.length)⟩

/-- Rendering of an `Option String` inside a Python f-string:
`None` prints as `"None"`, a string prints as itself. -/
def pyOptStr : Option String → String
  | none => "None"
  | some s => s

/-- A filesystem path as the mover and scanner manipulate it: the
directory part (a plain string, never inspected further by the code
under study) and the final-component name. `parent / name` is path
construction, `.name`, `.stem`, `.suffix` read the final component. -/
structure PyPath where
  dir : String
  name : String
deriving DecidableEq, Repr

/-- `List.map` with the index of each element threaded through,
starting at a given index. Used to express the attempt number that the
effect oracles of the orchestrator are indexed by. -/
def mapIdx (g : Nat → α → β) : Nat → List α → List β
  | _, [] => []
  | i, a :: l => g i a :: mapIdx g (i + 1) l

/-! ## Categorizer (`src/categorizer.py`) -/

/-- The `FileCategorizer.CATEGORIES` class attribute, verbatim. -/
def CATEGORIES : List (String × List String) :=
  [ ("Documents", [".doc", ".docx", ".txt", ".rtf", ".odt", ".xls", ".xlsx", ".ppt", ".pptx"]),
    ("Images", [".jpg", ".jpeg", ".png", ".gif", ".bmp", ".svg", ".ico", ".webp"]),
    ("Videos", [".mp4", ".avi", ".mkv", ".mov", ".wmv", ".flv", ".webm"]),
    ("PDF", [".pdf"]),
    ("ZIPs", [".zip", ".rar", ".7z", ".tar", ".gz"]),
    ("Installers", [".exe", ".msi", ".dmg", ".pkg"]) ]

/-- The reverse mapping `_extension_to_category` built in
`FileCategorizer.__init__`: for each category, each listed extension is
lowercased and bound to the category. The keys are pairwise distinct
(see `extension_to_category_keys_nodup`), so first-match lookup on this
association list agrees with the Python dict. -/
def extension_to_category : List (String × String) :=
  CATEGORIES.flatMap (fun p => p.2.map (fun ext => (pyLower ext, p.1)))

/-- `FileCategorizer.get_category`: lowercase the path's suffix and look
it up, defaulting to `"Others"`. -/
def get_category (file_path : PyPath) : String :=
  (extension_to_category.lookup (pyLower (pySuffix file_path.name))).getD "Others"

/-- The lookup stage of `get_category`, as a function of the (not yet
lowercased) extension string: `dict.get(extension.lower(), "Others")`. -/
def categoryOfExtension (extension : String) : String :=
  (extension_to_category.lookup (pyLower extension)).getD "Others"

/-- The seven category labels the program can ever produce. -/
def categoryLabels : List String :=
  ["Documents", "Images", "Videos", "PDF", "ZIPs", "Installers", "Others"]

theorem extension_to_category_keys_nodup :
    (extension_to_category.map Prod.fst).Nodup := by decide

/-! ## Data models (`src/models.py`) -/

/-- `models.FileInfo`. -/
structure FileInfo where
  path : PyPath
  name : String
  extension : String
  size : Nat
deriving DecidableEq, Repr

/-- `models.OrganizationPlan`. `files_by_category` is a Python dict; it
is embedded as an association list in insertion order (Python ≥ 3.7
dicts preserve insertion order, and the builders below never create a
duplicate key). -/
structure OrganizationPlan where
  files_by_category : List (String × List FileInfo)
  folders_to_create : List String
  total_files : Nat
deriving DecidableEq, Repr

/-- `models.MoveResult`. -/
structure MoveResult where
  success : Bool
  source : PyPath
  destination : PyPath
  error : Option String
deriving DecidableEq, Repr

/-- `models.ExecutionResult`. `duration` is the wall-clock reading,
passed in as an opaque parameter of the embedding. -/
structure ExecutionResult where
  total_moved : Nat
  moved_by_category : List (String × Nat)
  errors : List String
  duration : Nat
deriving DecidableEq, Repr

/-! ## Orchestrator (`src/service.py`) -/

/-- One step of the grouping loop of `create_organization_plan`:
`if category not in d: d[category] = []` followed by
`d[category].append(f)`, on the association-list embedding of the dict
(an absent key is appended at the end, matching dict insertion order). -/
def dictAppend (d : List (String × List FileInfo)) (c : String) (f : FileInfo) :
    List (String × List FileInfo) :=
  match d with
  | [] => [(c, [f])]
  | (k, v) :: rest =>
    if k = c then (k, v ++ [f]) :: rest else (k, v) :: dictAppend rest c f

/-- `DesktopCleanerService.create_organization_plan`: group the files by
`get_category` of their path, record the dict keys as
`folders_to_create` and the input length as `total_files`. -/
def create_organization_plan (files : List FileInfo) : OrganizationPlan :=
  let d := files.foldl (fun d f => dictAppend d (get_category f.path) f) []
  { files_by_category := d
    folders_to_create := d.map Prod.fst
    total_files := files.length }

/-- Python dict assignment `d[k] = v` on the association-list embedding:
overwrite in place if the key is present, else append at the end. -/
def dictSet (d : List (String × Nat)) (k : String) (v : Nat) : List (String × Nat) :=
  match d with
  | [] => [(k, v)]
  | (k', v') :: rest =>
    if k' = k then (k', v) :: rest else (k', v') :: dictSet rest k v

/-- The folder-creation loop of `execute_plan`. `createRes i desktop c`
is the boolean returned by the `i`-th call to
`FileMover.create_category_folder(desktop, c)` — the oracle abstracts
the filesystem, with the attempt index capturing its evolving state.
A `False` return appends the error string and the loop continues. -/
def folderLoop (createRes : Nat → String → String → Bool) (desktop : String) :
    Nat → List String → List String
  | _, [] => []
  | i, c :: rest =>
    if createRes i desktop c then folderLoop createRes desktop (i + 1) rest
    else ("Failed to create folder for category: " ++ c) ::
      folderLoop createRes desktop (i + 1) rest

/-- The inner per-file loop of `execute_plan` for one category.
`moveRes i src folder` is the `MoveResult` returned by the `i`-th call
to `FileMover.move_file(src, folder)` (oracle over the filesystem,
indexed by attempt number). Returns the category's `moved_count`, the
error strings appended during this category, and the next attempt
index. -/
def fileLoop (moveRes : Nat → PyPath → String → MoveResult) (category_folder : String) :
    Nat → List FileInfo → Nat × List String × Nat
  | i, [] => (0, [], i)
  | i, f :: rest =>
    let r := moveRes i f.path category_folder
    let (cnt, errs, i') := fileLoop moveRes category_folder (i + 1) rest
    if r.success then (cnt + 1, errs, i')
    else (cnt, ("Failed to move " ++ f.name ++ ": " ++ pyOptStr r.error) :: errs, i')

/-- The outer per-category loop of `execute_plan`, in accumulator style
mirroring the imperative loop: `total` is `total_moved` so far, `mbc`
the `moved_by_category` dict so far, `errs` the error list so far, `i`
the next move-attempt index. Each category's folder is
`desktop_path / category`; after its files are processed,
`moved_by_category[category] = moved_count`. -/
def categoryLoop (moveRes : Nat → PyPath → String → MoveResult) (desktop : String) :
    Nat → Nat → List (String × Nat) → List String →
    List (String × List FileInfo) → Nat × List (String × Nat) × List String
  | _, total, mbc, errs, [] => (total, mbc, errs)
  | i, total, mbc, errs, (c, files) :: rest =>
    let (cnt, ferrs, i') := fileLoop moveRes (desktop ++ "/" ++ c) i files
    categoryLoop moveRes desktop i' (total + cnt) (dictSet mbc c cnt) (errs ++ ferrs) rest

/-- `DesktopCleanerService.execute_plan`: create the category folders
(collecting folder-creation errors), then move every file of every
category (collecting per-file errors and counts). The two oracles stand
for the mover's filesystem effects; `duration` is the elapsed-time
reading. Total by construction: no code path raises. -/
def execute_plan (createRes : Nat → String → String → Bool)
    (moveRes : Nat → PyPath → String → MoveResult)
    (plan : OrganizationPlan) (desktop_path : String) (duration : Nat) :
    ExecutionResult :=
  let errors0 := folderLoop createRes desktop_path 0 plan.folders_to_create
  let res := categoryLoop moveRes desktop_path 0 0 [] errors0 plan.files_by_category
  { total_moved := res.1
    moved_by_category := res.2.1
    errors := res.2.2
    duration := duration }

/-! Specification-side descriptions of the `execute_plan` run, used to
state what the loops above compute. -/

/-- The move attempts a plan gives rise to, in attempt order: for each
category group in dict order, each of its files in order, paired with
the category folder `desktop / category` the move targets. -/
def attemptPairs (desktop : String) : List (String × List FileInfo) → List (String × FileInfo)
  | [] => []
  | (c, files) :: rest =>
    files.map (fun f => (desktop ++ "/" ++ c, f)) ++ attemptPairs desktop rest

/-- The `MoveResult`s the oracle hands back over a list of attempts,
starting at a given attempt index. -/
def attemptResults (moveRes : Nat → PyPath → String → MoveResult)
    (i : Nat) (l : List (String × FileInfo)) : List MoveResult :=
  mapIdx (fun j p => moveRes j p.2.path p.1) i l

/-- The error strings produced by the failed attempts of a list of move
attempts, in attempt order. -/
def moveFailMsgs (moveRes : Nat → PyPath → String → MoveResult) :
    Nat → List (String × FileInfo) → List String
  | _, [] => []
  | i, (folder, f) :: rest =>
    let r := moveRes i f.path folder
    if r.success then moveFailMsgs moveRes (i + 1) rest
    else ("Failed to move " ++ f.name ++ ": " ++ pyOptStr r.error) ::
      moveFailMsgs moveRes (i + 1) rest

/-- Per-category successful-move counts of an `execute_plan` run, in
plan order, with the attempt index threaded through the categories. -/
def perCatCounts (moveRes : Nat → PyPath → String → MoveResult) (desktop : String) :
    Nat → List (String × List FileInfo) → List (String × Nat)
  | _, [] => []
  | i, (c, files) :: rest =>
    (c, (attemptResults moveRes i (files.map (fun f => (desktop ++ "/" ++ c, f)))).countP
        (fun r => r.success)) ::
      perCatCounts moveRes desktop (i + files.length) rest

/-! ## Mover (`src/mover.py`) -/

/-- The kind of an existing filesystem entry, as far as `mkdir` cares. -/
inductive EntryKind
  | dir
  | file
deriving DecidableEq, Repr

/-- Filesystem state for `create_category_folder`: what exists at each
path, and whether the OS would allow creating a directory at a path
(permission, parent validity, ...). -/
structure FSState where
  kind : PyPath → Option EntryKind
  canCreate : PyPath → Bool

/-- The state after a directory is created at `p`. -/
def FSState.insertDir (st : FSState) (p : PyPath) : FSState :=
  { kind := fun q => if q = p then some EntryKind.dir else st.kind q
    canCreate := st.canCreate }

/-- `FileMover.create_category_folder`: `folder_path.mkdir(exist_ok=True)`
inside `try/except (OSError, PermissionError)`. An existing directory is
success with no change (`exist_ok=True`); an existing non-directory
entry raises `FileExistsError` (an `OSError`), caught and turned into
`False`; creation either succeeds (state gains the directory) or the OS
error is caught and `False` is returned with the state unchanged. -/
def create_category_folder (st : FSState) (desktop_path : String) (category : String) :
    Bool × FSState :=
  match st.kind ⟨desktop_path, category⟩ with
  | some EntryKind.dir => (true, st)
  | some EntryKind.file => (false, st)
  | none =>
    if st.canCreate ⟨desktop_path, category⟩ then
      (true, st.insertDir ⟨desktop_path, category⟩)
    else (false, st)

/-- The candidate file name `f"{stem}_{counter}{suffix}"` tried by
`resolve_name_conflict`. -/
def candidateName (stem suffix : String) (counter : Nat) : String :=
  stem ++ "_" ++ toString counter ++ suffix

/-- The `while True` loop of `FileMover.resolve_name_conflict`,
with an explicit fuel bound standing for the unbounded iteration:
`none` means the loop has not found a free name within `fuel` steps.
`fs` is the `Path.exists()` predicate of the surrounding filesystem. -/
def resolveLoop (fs : PyPath → Bool) (parent stem suffix : String) :
    Nat → Nat → Option PyPath
  | 0, _ => none
  | fuel + 1, counter =>
    let new_path : PyPath := ⟨parent, candidateName stem suffix counter⟩
    if fs new_path = false then some new_path
    else resolveLoop fs parent stem suffix fuel (counter + 1)

/-- `FileMover.resolve_name_conflict`: return the destination untouched
when nothing exists there, otherwise search `stem_1`, `stem_2`, ... in
the same parent until a free name is found. -/
def resolve_name_conflict (fs : PyPath → Bool) (fuel : Nat) (destination : PyPath) :
    Option PyPath :=
  if fs destination = false then some destination
  else resolveLoop fs destination.dir (pyStem destination.name)
    (pySuffix destination.name) fuel 1

/-- `FileMover.move_file`: compute the naive destination
`destination_folder / source.name`, resolve collisions, then perform
`shutil.move`. `moveErr src dst` is the oracle for the move proper:
`none` means it succeeded, `some e` that it raised an exception whose
`str` is `e` — caught and turned into a failed `MoveResult` whose
reported destination is the naive one rebuilt in the `except` block.
`none` overall stands for the one behaviour that is not a return at
all: the collision-search loop running forever. -/
def move_file (fs : PyPath → Bool) (moveErr : PyPath → PyPath → Option String)
    (fuel : Nat) (source : PyPath) (destination_folder : String) : Option MoveResult :=
  match resolve_name_conflict fs fuel ⟨destination_folder, source.name⟩ with
  | none => none
  | some destination =>
    match moveErr source destination with
    | none => some ⟨true, source, destination, none⟩
    | some e => some ⟨false, source, ⟨destination_folder, source.name⟩, some e⟩

/-! ## Scanner (`src/scanner.py`) -/

/-- One directory entry as `should_exclude` and `scan_desktop` probe it:
its name, `is_dir()`, `is_file()`, the platform hidden flag
(`none` when the attribute check raises `AttributeError`/`OSError`),
and `stat().st_size` (`none` when the per-item `stat` raises). -/
structure DirEntry where
  name : String
  isDir : Bool
  isFile : Bool
  hidden : Option Bool
  size : Option Nat
deriving DecidableEq, Repr

/-- `DesktopScanner.should_exclude`: every directory is excluded
(category folder or not), then `desktop.ini` case-insensitively, then
the platform hidden flag — whose failed check (`except ... pass`) falls
through to `return False`. -/
def should_exclude (e : DirEntry) : Bool :=
  if e.isDir then true
  else if pyLower e.name = "desktop.ini" then true
  else
    match e.hidden with
    | some b => b
    | none => false

/-- The per-entry loop of `DesktopScanner.scan_desktop` over the
directory listing: skip excluded entries, keep `is_file()` entries whose
`stat` succeeds, building a `FileInfo` with the lowercased suffix;
entries whose `stat` raises are skipped. -/
def scan_desktop (desktop : String) (entries : List DirEntry) : List FileInfo :=
  entries.filterMap (fun item =>
    if should_exclude item then none
    else if item.isFile then
      match item.size with
      | some sz =>
        some { path := ⟨desktop, item.name⟩
               name := item.name
               extension := pyLower (pySuffix item.name)
               size := sz }
      | none => none
    else none)

/-! ## General lemmas -/

theorem lookup_val_mem {α β : Type} [BEq α] :
    ∀ (l : List (α × β)) (k : α) (v : β), l.lookup k = some v → v ∈ l.map Prod.snd := by
  intro l
  induction l with
  | nil => intro k v h; simp [List.lookup] at h
  | cons a rest ih =>
    intro k v h
    rw [List.lookup_cons] at h
    cases hk : k == a.1 with
    | true => simp [hk] at h; simp [h]
    | false =>
      simp [hk] at h
      exact List.mem_cons_of_mem _ (ih k v h)

theorem lookup_mem_keys {α β : Type} [BEq α] [LawfulBEq α] :
    ∀ (l : List (α × β)) (k : α) (v : β), l.lookup k = some v → k ∈ l.map Prod.fst := by
  intro l
  induction l with
  | nil => intro k v h; simp [List.lookup] at h
  | cons a rest ih =>
    intro k v h
    rw [List.lookup_cons] at h
    cases hk : k == a.1 with
    | true => simp at hk; simp [hk]
    | false =>
      simp [hk] at h
      exact List.mem_cons_of_mem _ (ih k v h)

theorem mem_keys_lookup {α β : Type} [BEq α] [LawfulBEq α] :
    ∀ (l : List (α × β)) (k : α), k ∈ l.map Prod.fst → ∃ v, l.lookup k = some v := by
  intro l
  induction l with
  | nil => intro k h; simp at h
  | cons a rest ih =>
    intro k h
    rw [List.map_cons] at h
    rw [List.lookup_cons]
    cases hk : k == a.1 with
    | true => exact ⟨a.2, rfl⟩
    | false =>
      have hk' : ¬ k = a.1 := by simpa using hk
      rcases List.mem_cons.mp h with h1 | h1
      · exact absurd h1 hk'
      · exact ih k h1

theorem mapIdx_append (g : Nat → α → β) :
    ∀ (l1 l2 : List α) (i : Nat),
      mapIdx g i (l1 ++ l2) = mapIdx g i l1 ++ mapIdx g (i + l1.length) l2 := by
  intro l1
  induction l1 with
  | nil => intro l2 i; simp [mapIdx]
  | cons a rest ih =>
    intro l2 i
    simp only [List.cons_append, mapIdx, List.length_cons, List.append_eq]
    rw [ih l2 (i + 1)]
    have : i + 1 + rest.length = i + (rest.length + 1) := by omega
    rw [this]

theorem mapIdx_length (g : Nat → α → β) :
    ∀ (l : List α) (i : Nat), (mapIdx g i l).length = l.length := by
  intro l
  induction l with
  | nil => intro i; rfl
  | cons a rest ih => intro i; simp [mapIdx, ih]

/-! ## Character-case lemmas for the categorizer -/

theorem toNat_ofNat_small (n : Nat) (h : n < 55296) : (Char.ofNat n).toNat = n := by
  unfold Char.ofNat
  split
  · rfl
  · next hv => exact absurd (Or.inl h) hv

theorem pyLowerChar_pyUpperChar (c : Char) :
    pyLowerChar (pyUpperChar c) = pyLowerChar c := by
  unfold pyLowerChar pyUpperChar
  by_cases hup : 97 ≤ c.toNat ∧ c.toNat ≤ 122
  · rw [if_pos hup]
    have ht : (Char.ofNat (c.toNat - 32)).toNat = c.toNat - 32 :=
      toNat_ofNat_small _ (by omega)
    rw [if_pos (by rw [ht]; omega), ht, if_neg (by omega)]
    have : c.toNat - 32 + 32 = c.toNat := by omega
    rw [this, Char.ofNat_toNat]
  · rw [if_neg hup]

theorem pyLowerChar_pyLowerChar (c : Char) :
    pyLowerChar (pyLowerChar c) = pyLowerChar c := by
  unfold pyLowerChar
  by_cases hlo : 65 ≤ c.toNat ∧ c.toNat ≤ 90
  · rw [if_pos hlo]
    have ht : (Char.ofNat (c.toNat + 32)).toNat = c.toNat + 32 :=
      toNat_ofNat_small _ (by omega)
    rw [if_neg (by rw [ht]; omega)]
  · rw [if_neg hlo, if_neg hlo]

theorem pyLower_pyUpper (s : String) : pyLower (pyUpper s) = pyLower s := by
  unfold pyLower pyUpper
  simp only [List.map_map]
  have : pyLowerChar ∘ pyUpperChar = pyLowerChar :=
    funext fun c => pyLowerChar_pyUpperChar c
  rw [this]

theorem pyLower_pyLower (s : String) : pyLower (pyLower s) = pyLower s := by
  unfold pyLower
  simp only [List.map_map]
  have : pyLowerChar ∘ pyLowerChar = pyLowerChar :=
    funext fun c => pyLowerChar_pyLowerChar c
  rw [this]

theorem extension_to_category_vals :
    ∀ v ∈ extension_to_category.map Prod.snd, v ∈ categoryLabels := by decide

/-- C1: `get_category` always returns a label from the fixed seven-label
set; when the lowercased extension is a key of the extension table it
returns that key's category, otherwise `"Others"`; and two paths whose
extensions agree up to letter case (equal after lowercasing) receive the
same category, as does an extension after `upper()` or `lower()`. -/
theorem C1_get_category_total_case_insensitive (p : PyPath) :
    get_category p ∈ categoryLabels ∧
    (∀ cat, extension_to_category.lookup (pyLower (pySuffix p.name)) = some cat →
      get_category p = cat) ∧
    (extension_to_category.lookup (pyLower (pySuffix p.name)) = none →
      get_category p = "Others") ∧
    (∀ q : PyPath, pyLower (pySuffix q.name) = pyLower (pySuffix p.name) →
      get_category q = get_category p) ∧
    (∀ ext : String, categoryOfExtension (pyUpper ext) = categoryOfExtension ext ∧
      categoryOfExtension (pyLower ext) = categoryOfExtension ext) := by
  refine ⟨?_, ?_, ?_, ?_, ?_⟩
  · unfold get_category
    cases h : extension_to_category.lookup (pyLower (pySuffix p.name)) with
    | none => simp [categoryLabels]
    | some v =>
      simp only [Option.getD_some]
      exact extension_to_category_vals v (lookup_val_mem _ _ _ h)
  · intro cat h
    unfold get_category
    rw [h]
    rfl
  · intro h
    unfold get_category
    rw [h]
    rfl
  · intro q h
    unfold get_category
    rw [h]
  · intro ext
    unfold categoryOfExtension
    rw [pyLower_pyUpper, pyLower_pyLower]
    exact ⟨rfl, rfl⟩

/-- Witness for C1 at concrete inputs: a known extension in mixed case
maps to its table category, an unknown one to `"Others"`. -/
theorem C1_witness :
    get_category ⟨"/home/u/Desktop", "Notes.TXT"⟩ = "Documents" ∧
    get_category ⟨"/home/u/Desktop", "data.xyz"⟩ = "Others" :=
  ⟨(C1_get_category_total_case_insensitive ⟨"/home/u/Desktop", "Notes.TXT"⟩).2.1
      "Documents" (by decide),
   (C1_get_category_total_case_insensitive ⟨"/home/u/Desktop", "data.xyz"⟩).2.2.1
      (by decide)⟩

/-! ## Lemmas on the plan-building dict (`create_organization_plan`) -/

theorem dictAppend_lookup (d : List (String × List FileInfo)) (c : String) (f : FileInfo)
    (c' : String) :
    (dictAppend d c f).lookup c' =
      if c' = c then some (((d.lookup c).getD []) ++ [f]) else d.lookup c' := by
  induction d with
  | nil =>
    by_cases h : c' = c
    · subst h
      simp [dictAppend, List.lookup]
    · have hb : (c' == c) = false := by simpa using h
      simp [dictAppend, List.lookup, h, hb]
  | cons a rest ih =>
    obtain ⟨k, v⟩ := a
    unfold dictAppend
    by_cases hk : k = c
    · subst hk
      by_cases h : c' = k
      · subst h
        simp [List.lookup_cons]
      · have hb : (c' == k) = false := by simpa using h
        simp [List.lookup_cons, h, hb]
    · rw [if_neg hk]
      by_cases h : c' = k
      · subst h
        simp [List.lookup_cons, hk]
      · have hb : (c' == k) = false := by simpa using h
        have hb2 : (c == k) = false := by
          rw [beq_eq_false_iff_ne]
          exact fun hs => hk hs.symm
        simp only [List.lookup_cons, hb, hb2]
        exact ih

theorem dictAppend_keys (d : List (String × List FileInfo)) (c : String) (f : FileInfo) :
    (dictAppend d c f).map Prod.fst =
      if c ∈ d.map Prod.fst then d.map Prod.fst else d.map Prod.fst ++ [c] := by
  induction d with
  | nil => simp [dictAppend]
  | cons a rest ih =>
    obtain ⟨k, v⟩ := a
    unfold dictAppend
    by_cases hk : k = c
    · subst hk
      simp
    · rw [if_neg hk]
      simp only [List.map_cons]
      rw [ih]
      by_cases hc : c ∈ rest.map Prod.fst
      · rw [if_pos hc, if_pos (List.mem_cons_of_mem _ hc)]
      · rw [if_neg hc, if_neg ?_]
        · simp
        · intro hmem
          rcases List.mem_cons.mp hmem with h1 | h1
          · exact hk h1.symm
          · exact hc h1

theorem dictAppend_keys_nodup (d : List (String × List FileInfo)) (c : String) (f : FileInfo)
    (h : (d.map Prod.fst).Nodup) : ((dictAppend d c f).map Prod.fst).Nodup := by
  rw [dictAppend_keys]
  by_cases hc : c ∈ d.map Prod.fst
  · rw [if_pos hc]; exact h
  · rw [if_neg hc]
    refine List.Nodup.append h (List.nodup_singleton c) ?_
    intro a ha hb
    rw [List.mem_singleton] at hb
    subst hb
    exact hc ha

theorem dictAppend_sumLen (d : List (String × List FileInfo)) (c : String) (f : FileInfo) :
    ((dictAppend d c f).map (fun p => p.2.length)).sum =
      (d.map (fun p => p.2.length)).sum + 1 := by
  induction d with
  | nil => simp [dictAppend]
  | cons a rest ih =>
    obtain ⟨k, v⟩ := a
    unfold dictAppend
    by_cases hk : k = c
    · subst hk
      rw [if_pos rfl]
      simp only [List.map_cons, List.sum_cons, List.length_append, List.length_cons,
        List.length_nil]
      omega
    · rw [if_neg hk]
      simp only [List.map_cons, List.sum_cons, ih]
      omega

theorem groupFold_lookup (files : List FileInfo) :
    ∀ (d : List (String × List FileInfo)) (c : String),
      (files.foldl (fun d f => dictAppend d (get_category f.path) f) d).lookup c =
        match d.lookup c with
        | some l => some (l ++ files.filter (fun f => get_category f.path == c))
        | none =>
          if files.filter (fun f => get_category f.path == c) = [] then none
          else some (files.filter (fun f => get_category f.path == c)) := by
  induction files with
  | nil =>
    intro d c
    simp only [List.foldl_nil, List.filter_nil]
    cases h : d.lookup c with
    | none => simp
    | some l => simp
  | cons f rest ih =>
    intro d c
    rw [List.foldl_cons, ih (dictAppend d (get_category f.path) f) c,
      dictAppend_lookup, List.filter_cons]
    by_cases hc : c = get_category f.path
    · rw [if_pos hc]
      have hb : (get_category f.path == c) = true := by simp [hc]
      rw [hb]
      rw [← hc]
      cases h : d.lookup c with
      | none => simp
      | some l => simp
    · rw [if_neg hc]
      have hb : (get_category f.path == c) = false := by
        rw [beq_eq_false_iff_ne]
        exact fun hs => hc hs.symm
      rw [hb]
      simp only [Bool.false_eq_true, if_false]

theorem groupFold_keys_nodup (files : List FileInfo) :
    ∀ d : List (String × List FileInfo), (d.map Prod.fst).Nodup →
      ((files.foldl (fun d f => dictAppend d (get_category f.path) f) d).map Prod.fst).Nodup := by
  induction files with
  | nil => intro d h; exact h
  | cons f rest ih =>
    intro d h
    rw [List.foldl_cons]
    exact ih _ (dictAppend_keys_nodup d _ f h)

theorem groupFold_sumLen (files : List FileInfo) :
    ∀ d : List (String × List FileInfo),
      ((files.foldl (fun d f => dictAppend d (get_category f.path) f) d).map
          (fun p => p.2.length)).sum =
        (d.map (fun p => p.2.length)).sum + files.length := by
  induction files with
  | nil => intro d; rfl
  | cons f rest ih =>
    intro d
    rw [List.foldl_cons, ih, dictAppend_sumLen, List.length_cons]
    omega

/-- C2: the plan built by `create_organization_plan` groups every input
record into exactly the group of its category, in input order (each
group is the input filtered to that category); no group is empty; the
group keys are duplicate-free; `folders_to_create` is exactly the key
list of the grouping; `total_files` is the input length; and the group
sizes sum to `total_files`. -/
theorem C2_create_organization_plan (files : List FileInfo) :
    (∀ c l, (create_organization_plan files).files_by_category.lookup c = some l →
      l = files.filter (fun f => get_category f.path == c) ∧ l ≠ []) ∧
    (∀ f ∈ files, ∃ l,
      (create_organization_plan files).files_by_category.lookup (get_category f.path) =
        some l ∧ f ∈ l) ∧
    ((create_organization_plan files).files_by_category.map Prod.fst).Nodup ∧
    (create_organization_plan files).folders_to_create =
      (create_organization_plan files).files_by_category.map Prod.fst ∧
    (create_organization_plan files).total_files = files.length ∧
    ((create_organization_plan files).files_by_category.map (fun p => p.2.length)).sum =
      (create_organization_plan files).total_files := by
  refine ⟨?_, ?_, ?_, rfl, rfl, ?_⟩
  · intro c l h
    unfold create_organization_plan at h
    simp only at h
    rw [groupFold_lookup files [] c] at h
    simp only [List.lookup_nil] at h
    by_cases he : files.filter (fun f => get_category f.path == c) = []
    · rw [if_pos he] at h
      exact absurd h (by simp)
    · rw [if_neg he] at h
      exact ⟨(Option.some_injective _ h).symm, by
        intro hl
        exact he ((Option.some_injective _ h) ▸ hl ▸ rfl)⟩
  · intro f hf
    have hmem : f ∈ files.filter (fun g => get_category g.path == get_category f.path) :=
      List.mem_filter.mpr ⟨hf, by simp⟩
    have hne : files.filter (fun g => get_category g.path == get_category f.path) ≠ [] :=
      List.ne_nil_of_mem hmem
    refine ⟨files.filter (fun g => get_category g.path == get_category f.path), ?_, hmem⟩
    unfold create_organization_plan
    simp only
    rw [groupFold_lookup files [] (get_category f.path)]
    simp only [List.lookup_nil]
    rw [if_neg hne]
  · unfold create_organization_plan
    simp only
    exact groupFold_keys_nodup files [] List.nodup_nil
  · unfold create_organization_plan
    simp only
    rw [groupFold_sumLen files []]
    simp

/-- Witness for C2 at a concrete input: two documents and an image give
a two-group plan; the Documents group is the filtered input. -/
theorem C2_witness :
    ((create_organization_plan
        [⟨⟨"/d", "a.txt"⟩, "a.txt", ".txt", 1⟩,
         ⟨⟨"/d", "b.jpg"⟩, "b.jpg", ".jpg", 2⟩,
         ⟨⟨"/d", "c.doc"⟩, "c.doc", ".doc", 3⟩]).files_by_category.lookup "Documents" =
      some [⟨⟨"/d", "a.txt"⟩, "a.txt", ".txt", 1⟩, ⟨⟨"/d", "c.doc"⟩, "c.doc", ".doc", 3⟩]) →
    ([⟨⟨"/d", "a.txt"⟩, "a.txt", ".txt", 1⟩, ⟨⟨"/d", "c.doc"⟩, "c.doc", ".doc", 3⟩] :
        List FileInfo) ≠ [] := by
  intro h
  exact ((C2_create_organization_plan
    [⟨⟨"/d", "a.txt"⟩, "a.txt", ".txt", 1⟩,
     ⟨⟨"/d", "b.jpg"⟩, "b.jpg", ".jpg", 2⟩,
     ⟨⟨"/d", "c.doc"⟩, "c.doc", ".doc", 3⟩]).1 "Documents" _ h).2

/-! ## Lemmas on the `execute_plan` loops -/

theorem moveFailMsgs_append (moveRes : Nat → PyPath → String → MoveResult) :
    ∀ (l1 l2 : List (String × FileInfo)) (i : Nat),
      moveFailMsgs moveRes i (l1 ++ l2) =
        moveFailMsgs moveRes i l1 ++ moveFailMsgs moveRes (i + l1.length) l2 := by
  intro l1
  induction l1 with
  | nil => intro l2 i; simp [moveFailMsgs]
  | cons a rest ih =>
    obtain ⟨folder, f⟩ := a
    intro l2 i
    simp only [List.cons_append, moveFailMsgs, List.length_cons, List.append_eq]
    rw [ih l2 (i + 1)]
    have harith : i + 1 + rest.length = i + (rest.length + 1) := by omega
    rw [harith]
    by_cases h : (moveRes i f.path folder).success
    · rw [if_pos h, if_pos h]
    · rw [if_neg h, if_neg h]
      simp

theorem moveFailMsgs_length (moveRes : Nat → PyPath → String → MoveResult) :
    ∀ (l : List (String × FileInfo)) (i : Nat),
      (moveFailMsgs moveRes i l).length =
        (attemptResults moveRes i l).countP (fun r => r.success = false) := by
  intro l
  induction l with
  | nil => intro i; rfl
  | cons a rest ih =>
    obtain ⟨folder, f⟩ := a
    intro i
    simp only [moveFailMsgs, attemptResults, mapIdx, List.countP_cons]
    have hrest := ih (i + 1)
    simp only [attemptResults] at hrest
    cases h : (moveRes i f.path folder).success with
    | true => simp [hrest]
    | false => simp [hrest]

theorem attemptResults_countP_append (moveRes : Nat → PyPath → String → MoveResult)
    (p : MoveResult → Bool) (l1 l2 : List (String × FileInfo)) (i : Nat) :
    (attemptResults moveRes i (l1 ++ l2)).countP p =
      (attemptResults moveRes i l1).countP p +
        (attemptResults moveRes (i + l1.length) l2).countP p := by
  unfold attemptResults
  rw [mapIdx_append, List.countP_append]

theorem fileLoop_spec (moveRes : Nat → PyPath → String → MoveResult) (folder : String) :
    ∀ (files : List FileInfo) (i : Nat),
      fileLoop moveRes folder i files =
        ((attemptResults moveRes i (files.map (fun f => (folder, f)))).countP
            (fun r => r.success),
         moveFailMsgs moveRes i (files.map (fun f => (folder, f))),
         i + files.length) := by
  intro files
  induction files with
  | nil => intro i; rfl
  | cons f rest ih =>
    intro i
    simp only [fileLoop, List.map_cons, attemptResults, mapIdx, moveFailMsgs,
      List.countP_cons, List.length_cons]
    rw [ih (i + 1)]
    simp only [attemptResults]
    have harith : i + 1 + rest.length = i + (rest.length + 1) := by omega
    cases h : (moveRes i f.path folder).success with
    | true => simp [harith]
    | false => simp [harith]

theorem dictSet_fresh (k : String) (v : Nat) :
    ∀ d : List (String × Nat), k ∉ d.map Prod.fst → dictSet d k v = d ++ [(k, v)] := by
  intro d
  induction d with
  | nil => intro _; rfl
  | cons a rest ih =>
    obtain ⟨k', v'⟩ := a
    intro h
    rw [List.map_cons] at h
    unfold dictSet
    have h1 : ¬ k' = k := by
      intro hs
      exact h (by rw [hs]; exact List.mem_cons_self _ _)
    have h2 : k ∉ rest.map Prod.fst := fun hm => h (List.mem_cons_of_mem _ hm)
    rw [if_neg h1, ih h2]
    rfl

theorem categoryLoop_total_errors (moveRes : Nat → PyPath → String → MoveResult)
    (desktop : String) :
    ∀ (groups : List (String × List FileInfo)) (i total : Nat)
      (mbc : List (String × Nat)) (errs : List String),
      (categoryLoop moveRes desktop i total mbc errs groups).1 =
        total + (attemptResults moveRes i (attemptPairs desktop groups)).countP
          (fun r => r.success) ∧
      (categoryLoop moveRes desktop i total mbc errs groups).2.2 =
        errs ++ moveFailMsgs moveRes i (attemptPairs desktop groups) := by
  intro groups
  induction groups with
  | nil =>
    intro i total mbc errs
    simp [categoryLoop, attemptPairs, attemptResults, mapIdx, moveFailMsgs]
  | cons g rest ih =>
    obtain ⟨c, files⟩ := g
    intro i total mbc errs
    simp only [categoryLoop, attemptPairs]
    rw [fileLoop_spec]
    simp only
    obtain ⟨ih1, ih2⟩ := ih (i + files.length)
      (total + (attemptResults moveRes i (files.map (fun f => (desktop ++ "/" ++ c, f)))).countP
        (fun r => r.success))
      (dictSet mbc c ((attemptResults moveRes i
        (files.map (fun f => (desktop ++ "/" ++ c, f)))).countP (fun r => r.success)))
      (errs ++ moveFailMsgs moveRes i (files.map (fun f => (desktop ++ "/" ++ c, f))))
    constructor
    · rw [ih1, attemptResults_countP_append]
      rw [List.length_map]
      omega
    · rw [ih2, moveFailMsgs_append, List.length_map, List.append_assoc]

theorem categoryLoop_mbc (moveRes : Nat → PyPath → String → MoveResult) (desktop : String) :
    ∀ (groups : List (String × List FileInfo)) (i total : Nat)
      (mbc : List (String × Nat)) (errs : List String),
      (groups.map Prod.fst).Nodup →
      (∀ k, k ∈ groups.map Prod.fst → k ∉ mbc.map Prod.fst) →
      (categoryLoop moveRes desktop i total mbc errs groups).2.1 =
        mbc ++ perCatCounts moveRes desktop i groups := by
  intro groups
  induction groups with
  | nil =>
    intro i total mbc errs _ _
    simp [categoryLoop, perCatCounts]
  | cons g rest ih =>
    obtain ⟨c, files⟩ := g
    intro i total mbc errs hnd hdisj
    simp only [categoryLoop, perCatCounts]
    rw [fileLoop_spec]
    simp only
    rw [List.map_cons] at hnd hdisj
    have hcfresh : c ∉ mbc.map Prod.fst := hdisj c (List.mem_cons_self _ _)
    have hcnotrest : c ∉ rest.map Prod.fst := by
      have := List.nodup_cons.mp hnd
      exact this.1
    rw [dictSet_fresh _ _ _ hcfresh]
    rw [ih (i + files.length) _ _ _ (List.nodup_cons.mp hnd).2 ?_]
    · simp
    · intro k hk
      rw [List.map_append]
      intro hmem
      rcases List.mem_append.mp hmem with h1 | h1
      · exact hdisj k (List.mem_cons_of_mem _ hk) h1
      · simp only [List.map_cons, List.map_nil, List.mem_singleton] at h1
        exact hcnotrest (h1 ▸ hk)

theorem perCatCounts_keys (moveRes : Nat → PyPath → String → MoveResult) (desktop : String) :
    ∀ (groups : List (String × List FileInfo)) (i : Nat),
      (perCatCounts moveRes desktop i groups).map Prod.fst = groups.map Prod.fst := by
  intro groups
  induction groups with
  | nil => intro i; rfl
  | cons g rest ih =>
    obtain ⟨c, files⟩ := g
    intro i
    simp only [perCatCounts, List.map_cons]
    rw [ih]

theorem perCatCounts_sum (moveRes : Nat → PyPath → String → MoveResult) (desktop : String) :
    ∀ (groups : List (String × List FileInfo)) (i : Nat),
      ((perCatCounts moveRes desktop i groups).map Prod.snd).sum =
        (attemptResults moveRes i (attemptPairs desktop groups)).countP
          (fun r => r.success) := by
  intro groups
  induction groups with
  | nil => intro i; rfl
  | cons g rest ih =>
    obtain ⟨c, files⟩ := g
    intro i
    simp only [perCatCounts, attemptPairs, List.map_cons, List.sum_cons]
    rw [ih, attemptResults_countP_append, List.length_map]

theorem folderLoop_length (createRes : Nat → String → String → Bool) (desktop : String) :
    ∀ (folders : List String) (i : Nat),
      (folderLoop createRes desktop i folders).length =
        (mapIdx (fun j c => createRes j desktop c) i folders).countP (fun b => b = false) := by
  intro folders
  induction folders with
  | nil => intro i; rfl
  | cons c rest ih =>
    intro i
    simp only [folderLoop, mapIdx, List.countP_cons]
    cases h : createRes i desktop c with
    | true => simp [ih (i + 1)]
    | false => simp [ih (i + 1)]

theorem countP_success_sub (l : List MoveResult) :
    l.countP (fun r => r.success) =
      l.length - l.countP (fun r => r.success = false) := by
  have hfun : (fun r : MoveResult => decide (r.success = false)) =
      (fun r : MoveResult => !r.success) := by
    funext r
    cases h : r.success <;> simp [h]
  rw [hfun]
  induction l with
  | nil => rfl
  | cons r rest ih =>
    have hle : rest.countP (fun r => !r.success) ≤ rest.length :=
      List.countP_le_length _
    simp only [List.countP_cons, List.length_cons]
    cases h : r.success with
    | true =>
      simp only [h, Bool.not_true, decide_True, Bool.false_eq_true, if_false, if_true,
        Nat.add_zero]
      omega
    | false =>
      simp only [h, Bool.not_false, decide_False, Bool.false_eq_true, if_false, if_true,
        Nat.add_zero]
      omega

theorem attemptResults_length (moveRes : Nat → PyPath → String → MoveResult)
    (l : List (String × FileInfo)) (i : Nat) :
    (attemptResults moveRes i l).length = l.length := by
  unfold attemptResults
  exact mapIdx_length _ l i

/-- C3: for every plan and every pattern of folder-creation and move
outcomes (the oracles), `execute_plan` — which is total in the
embedding, modelling that no exception escapes — attempts a move for
every one of the `N` files of the plan's groups (the attempt list covers
them all, one result per attempt), returns `total_moved = N - K` where
`K` is the number of failed move attempts, and its error list is
exactly one message per failed folder creation followed by one message
per failed move, in attempt order. -/
theorem C3_execute_plan_error_resilience
    (createRes : Nat → String → String → Bool)
    (moveRes : Nat → PyPath → String → MoveResult)
    (plan : OrganizationPlan) (desktop : String) (duration : Nat) :
    (execute_plan createRes moveRes plan desktop duration).total_moved =
      (attemptPairs desktop plan.files_by_category).length -
        (attemptResults moveRes 0 (attemptPairs desktop plan.files_by_category)).countP
          (fun r => r.success = false) ∧
    (execute_plan createRes moveRes plan desktop duration).errors =
      folderLoop createRes desktop 0 plan.folders_to_create ++
        moveFailMsgs moveRes 0 (attemptPairs desktop plan.files_by_category) ∧
    (folderLoop createRes desktop 0 plan.folders_to_create).length =
      (mapIdx (fun j c => createRes j desktop c) 0 plan.folders_to_create).countP
        (fun b => b = false) ∧
    (moveFailMsgs moveRes 0 (attemptPairs desktop plan.files_by_category)).length =
      (attemptResults moveRes 0 (attemptPairs desktop plan.files_by_category)).countP
        (fun r => r.success = false) ∧
    (attemptResults moveRes 0 (attemptPairs desktop plan.files_by_category)).length =
      (attemptPairs desktop plan.files_by_category).length := by
  have hte := categoryLoop_total_errors moveRes desktop plan.files_by_category 0 0 []
    (folderLoop createRes desktop 0 plan.folders_to_create)
  refine ⟨?_, ?_, folderLoop_length createRes desktop plan.folders_to_create 0,
    moveFailMsgs_length moveRes (attemptPairs desktop plan.files_by_category) 0,
    attemptResults_length moveRes (attemptPairs desktop plan.files_by_category) 0⟩
  · show (categoryLoop moveRes desktop 0 0 []
      (folderLoop createRes desktop 0 plan.folders_to_create) plan.files_by_category).1 = _
    rw [hte.1, Nat.zero_add, countP_success_sub]
    congr 1
    exact attemptResults_length moveRes (attemptPairs desktop plan.files_by_category) 0
  · show (categoryLoop moveRes desktop 0 0 []
      (folderLoop createRes desktop 0 plan.folders_to_create) plan.files_by_category).2.2 = _
    exact hte.2

/-- C4: whatever the outcome pattern, the per-category moved counts in
the result of `execute_plan` sum to `total_moved`. The hypothesis that
the plan's grouping has duplicate-free keys is inherent to the source,
where the grouping is a Python dict. -/
theorem C4_moved_by_category_sum
    (createRes : Nat → String → String → Bool)
    (moveRes : Nat → PyPath → String → MoveResult)
    (plan : OrganizationPlan) (desktop : String) (duration : Nat)
    (h : (plan.files_by_category.map Prod.fst).Nodup) :
    ((execute_plan createRes moveRes plan desktop duration).moved_by_category.map
        Prod.snd).sum =
      (execute_plan createRes moveRes plan desktop duration).total_moved := by
  have hte := categoryLoop_total_errors moveRes desktop plan.files_by_category 0 0 []
    (folderLoop createRes desktop 0 plan.folders_to_create)
  have hm := categoryLoop_mbc moveRes desktop plan.files_by_category 0 0 []
    (folderLoop createRes desktop 0 plan.folders_to_create) h (by intro k hk; simp)
  show ((categoryLoop moveRes desktop 0 0 []
      (folderLoop createRes desktop 0 plan.folders_to_create)
        plan.files_by_category).2.1.map Prod.snd).sum =
    (categoryLoop moveRes desktop 0 0 []
      (folderLoop createRes desktop 0 plan.folders_to_create) plan.files_by_category).1
  rw [hm, hte.1, List.nil_append, Nat.zero_add]
  exact perCatCounts_sum moveRes desktop plan.files_by_category 0

/-- Witness for C4: a two-category plan where the first move succeeds
and the second fails; the recorded counts 1 and 0 sum to the total 1. -/
theorem C4_witness :
    ((execute_plan (fun _ _ _ => true)
        (fun i _ _ => ⟨decide (i = 0), ⟨"/d", "a.txt"⟩, ⟨"/d", "a.txt"⟩, some "lost"⟩)
        ⟨[("Documents", [⟨⟨"/d", "a.txt"⟩, "a.txt", ".txt", 1⟩]),
          ("Images", [⟨⟨"/d", "b.jpg"⟩, "b.jpg", ".jpg", 2⟩])],
         ["Documents", "Images"], 2⟩ "/d" 0).moved_by_category.map Prod.snd).sum =
      (execute_plan (fun _ _ _ => true)
        (fun i _ _ => ⟨decide (i = 0), ⟨"/d", "a.txt"⟩, ⟨"/d", "a.txt"⟩, some "lost"⟩)
        ⟨[("Documents", [⟨⟨"/d", "a.txt"⟩, "a.txt", ".txt", 1⟩]),
          ("Images", [⟨⟨"/d", "b.jpg"⟩, "b.jpg", ".jpg", 2⟩])],
         ["Documents", "Images"], 2⟩ "/d" 0).total_moved :=
  C4_moved_by_category_sum (fun _ _ _ => true)
    (fun i _ _ => ⟨decide (i = 0), ⟨"/d", "a.txt"⟩, ⟨"/d", "a.txt"⟩, some "lost"⟩)
    ⟨[("Documents", [⟨⟨"/d", "a.txt"⟩, "a.txt", ".txt", 1⟩]),
      ("Images", [⟨⟨"/d", "b.jpg"⟩, "b.jpg", ".jpg", 2⟩])],
     ["Documents", "Images"], 2⟩ "/d" 0 (by decide)

/-- C10: the per-category moved-count mapping of the result carries an
entry for every category key of the plan's grouping — its key list is
exactly the grouping's key list, so zero-success categories are
recorded (with count 0) rather than omitted. Keys are duplicate-free as
in the source's Python dict. -/
theorem C10_all_categories_recorded
    (createRes : Nat → String → String → Bool)
    (moveRes : Nat → PyPath → String → MoveResult)
    (plan : OrganizationPlan) (desktop : String) (duration : Nat)
    (h : (plan.files_by_category.map Prod.fst).Nodup) :
    (execute_plan createRes moveRes plan desktop duration).moved_by_category.map Prod.fst =
      plan.files_by_category.map Prod.fst ∧
    ∀ c l, plan.files_by_category.lookup c = some l →
      ∃ k, (execute_plan createRes moveRes plan desktop duration).moved_by_category.lookup c =
        some k := by
  have hm := categoryLoop_mbc moveRes desktop plan.files_by_category 0 0 []
    (folderLoop createRes desktop 0 plan.folders_to_create) h (by intro k hk; simp)
  have hkeys : (execute_plan createRes moveRes plan desktop duration).moved_by_category.map
      Prod.fst = plan.files_by_category.map Prod.fst := by
    show ((categoryLoop moveRes desktop 0 0 []
        (folderLoop createRes desktop 0 plan.folders_to_create)
          plan.files_by_category).2.1.map Prod.fst) = _
    rw [hm, List.nil_append]
    exact perCatCounts_keys moveRes desktop plan.files_by_category 0
  refine ⟨hkeys, ?_⟩
  intro c l hl
  have hc : c ∈ plan.files_by_category.map Prod.fst := lookup_mem_keys _ c l hl
  have hc2 : c ∈ (execute_plan createRes moveRes plan desktop duration).moved_by_category.map
      Prod.fst := by rw [hkeys]; exact hc
  exact mem_keys_lookup _ c hc2

/-- Witness for C10: with an all-failure mover, the sole category still
gets a recorded entry (count 0). -/
theorem C10_witness :
    ∃ k, (execute_plan (fun _ _ _ => true)
        (fun _ _ _ => ⟨false, ⟨"/d", "a.txt"⟩, ⟨"/d", "a.txt"⟩, some "gone"⟩)
        ⟨[("Documents", [⟨⟨"/d", "a.txt"⟩, "a.txt", ".txt", 1⟩])], ["Documents"], 1⟩
        "/d" 0).moved_by_category.lookup "Documents" = some k :=
  (C10_all_categories_recorded (fun _ _ _ => true)
    (fun _ _ _ => ⟨false, ⟨"/d", "a.txt"⟩, ⟨"/d", "a.txt"⟩, some "gone"⟩)
    ⟨[("Documents", [⟨⟨"/d", "a.txt"⟩, "a.txt", ".txt", 1⟩])], ["Documents"], 1⟩
    "/d" 0 (by decide)).2 "Documents" [⟨⟨"/d", "a.txt"⟩, "a.txt", ".txt", 1⟩] (by decide)

/-! ## Lemmas on the collision-resolution loop -/

theorem resolveLoop_free (fs : PyPath → Bool) (parent stem suffix : String) :
    ∀ (fuel counter : Nat) (p : PyPath),
      resolveLoop fs parent stem suffix fuel counter = some p → fs p = false := by
  intro fuel
  induction fuel with
  | zero => intro counter p h; exact absurd h (by simp [resolveLoop])
  | succ n ih =>
    intro counter p h
    unfold resolveLoop at h
    by_cases hc : fs ⟨parent, candidateName stem suffix counter⟩ = false
    · rw [if_pos hc] at h
      cases h
      exact hc
    · rw [if_neg hc] at h
      exact ih (counter + 1) p h

theorem resolveLoop_shape (fs : PyPath → Bool) (parent stem suffix : String) :
    ∀ (fuel counter : Nat) (p : PyPath),
      resolveLoop fs parent stem suffix fuel counter = some p →
      ∃ m, counter ≤ m ∧ p = ⟨parent, candidateName stem suffix m⟩ := by
  intro fuel
  induction fuel with
  | zero => intro counter p h; exact absurd h (by simp [resolveLoop])
  | succ n ih =>
    intro counter p h
    unfold resolveLoop at h
    by_cases hc : fs ⟨parent, candidateName stem suffix counter⟩ = false
    · rw [if_pos hc] at h
      cases h
      exact ⟨counter, Nat.le_refl _, rfl⟩
    · rw [if_neg hc] at h
      obtain ⟨m, hm1, hm2⟩ := ih (counter + 1) p h
      exact ⟨m, by omega, hm2⟩

theorem resolveLoop_min (fs : PyPath → Bool) (parent stem suffix : String) :
    ∀ (fuel counter n : Nat), counter ≤ n →
      fs ⟨parent, candidateName stem suffix n⟩ = false →
      (∀ m, counter ≤ m → m < n → fs ⟨parent, candidateName stem suffix m⟩ = true) →
      n < counter + fuel →
      resolveLoop fs parent stem suffix fuel counter =
        some ⟨parent, candidateName stem suffix n⟩ := by
  intro fuel
  induction fuel with
  | zero => intro counter n h1 _ _ h4; omega
  | succ k ih =>
    intro counter n h1 hfree hmin h4
    unfold resolveLoop
    by_cases hc : fs ⟨parent, candidateName stem suffix counter⟩ = false
    · rw [if_pos hc]
      have hcn : counter = n := by
        by_contra hne
        have hlt : counter < n := by omega
        have := hmin counter (Nat.le_refl _) hlt
        rw [this] at hc
        exact Bool.noConfusion hc
      rw [hcn]
    · rw [if_neg hc]
      have hcn : counter ≠ n := by
        intro hs
        rw [hs] at hc
        exact hc hfree
      exact ih (counter + 1) n (by omega) hfree
        (fun m hm1 hm2 => hmin m (by omega) hm2) (by omega)

theorem resolveLoop_total (fs : PyPath → Bool) (parent stem suffix : String) :
    ∀ (fuel counter n : Nat), counter ≤ n →
      fs ⟨parent, candidateName stem suffix n⟩ = false →
      n < counter + fuel →
      ∃ p, resolveLoop fs parent stem suffix fuel counter = some p := by
  intro fuel
  induction fuel with
  | zero => intro counter n h1 _ h3; omega
  | succ k ih =>
    intro counter n h1 hfree h3
    unfold resolveLoop
    by_cases hc : fs ⟨parent, candidateName stem suffix counter⟩ = false
    · rw [if_pos hc]
      exact ⟨_, rfl⟩
    · rw [if_neg hc]
      have hcn : counter ≠ n := by
        intro hs
        rw [hs] at hc
        exact hc hfree
      exact ih (counter + 1) n (by omega) hfree (by omega)

/-- C5: if nothing exists at the candidate destination, the collision
resolver returns it unchanged; otherwise it returns
`<stem>_<n><suffix>` in the same parent for the smallest `n ≥ 1` whose
candidate does not exist (given enough fuel to reach it); and whatever
it returns never coincides with an existing entry. -/
theorem C5_resolve_name_conflict (fs : PyPath → Bool) (dest : PyPath) (fuel n : Nat)
    (h1 : 1 ≤ n)
    (hfree : fs ⟨dest.dir, candidateName (pyStem dest.name) (pySuffix dest.name) n⟩ = false)
    (hmin : ∀ m, 1 ≤ m → m < n →
      fs ⟨dest.dir, candidateName (pyStem dest.name) (pySuffix dest.name) m⟩ = true)
    (hfuel : n ≤ fuel) :
    (fs dest = false → resolve_name_conflict fs fuel dest = some dest) ∧
    (fs dest = true → resolve_name_conflict fs fuel dest =
      some ⟨dest.dir, candidateName (pyStem dest.name) (pySuffix dest.name) n⟩) ∧
    (∀ p, resolve_name_conflict fs fuel dest = some p → fs p = false) := by
  refine ⟨?_, ?_, ?_⟩
  · intro h
    unfold resolve_name_conflict
    rw [if_pos h]
  · intro h
    unfold resolve_name_conflict
    rw [if_neg (by rw [h]; exact fun hf => Bool.noConfusion hf)]
    exact resolveLoop_min fs dest.dir (pyStem dest.name) (pySuffix dest.name) fuel 1 n h1
      hfree hmin (by omega)
  · intro p hp
    unfold resolve_name_conflict at hp
    by_cases h : fs dest = false
    · rw [if_pos h] at hp
      cases hp
      exact h
    · rw [if_neg h] at hp
      exact resolveLoop_free fs dest.dir (pyStem dest.name) (pySuffix dest.name) fuel 1 p hp

/-- Witness for C5: with `a.txt` and `a_1.txt` existing, the resolver
sends `a.txt` to `a_2.txt`. -/
theorem C5_witness :
    resolve_name_conflict
      (fun p => decide (p = ⟨"/d", "a.txt"⟩) || decide (p = ⟨"/d", "a_1.txt"⟩))
      2 ⟨"/d", "a.txt"⟩ = some ⟨"/d", "a_2.txt"⟩ := by
  have h := (C5_resolve_name_conflict
    (fun p => decide (p = ⟨"/d", "a.txt"⟩) || decide (p = ⟨"/d", "a_1.txt"⟩))
    ⟨"/d", "a.txt"⟩ 2 2 (by decide) (by decide)
    (fun m hm1 hm2 => by
      have hm : m = 1 := by omega
      rw [hm]
      decide)
    (by decide)).2.1 (by decide)
  exact h

/-- C9: whenever some suffix index `n ≥ 1` names a non-existing entry —
in particular whenever only finitely many entries exist — the
suffix-search loop terminates: some fuel (hence the unbounded source
loop) produces a result. -/
theorem C9_resolve_terminates (fs : PyPath → Bool) (dest : PyPath)
    (h : ∃ n, 1 ≤ n ∧
      fs ⟨dest.dir, candidateName (pyStem dest.name) (pySuffix dest.name) n⟩ = false) :
    ∃ fuel p, resolve_name_conflict fs fuel dest = some p := by
  obtain ⟨n, hn1, hn2⟩ := h
  by_cases hd : fs dest = false
  · refine ⟨0, dest, ?_⟩
    unfold resolve_name_conflict
    rw [if_pos hd]
  · obtain ⟨p, hp⟩ := resolveLoop_total fs dest.dir (pyStem dest.name) (pySuffix dest.name)
      n 1 n hn1 hn2 (by omega)
    refine ⟨n, p, ?_⟩
    unfold resolve_name_conflict
    rw [if_neg hd]
    exact hp

/-- Witness for C9: an occupied destination in an otherwise empty
filesystem; the loop terminates. -/
theorem C9_witness :
    ∃ fuel p, resolve_name_conflict (fun q => decide (q = ⟨"/d", "b.pdf"⟩)) fuel
      ⟨"/d", "b.pdf"⟩ = some p :=
  C9_resolve_terminates (fun q => decide (q = ⟨"/d", "b.pdf"⟩)) ⟨"/d", "b.pdf"⟩
    ⟨1, by decide, by decide⟩

theorem resolve_name_conflict_shape (fs : PyPath → Bool) (fuel : Nat) (dest p : PyPath)
    (h : resolve_name_conflict fs fuel dest = some p) :
    p.dir = dest.dir ∧
    (p.name = dest.name ∨ ∃ n, 1 ≤ n ∧
      p.name = candidateName (pyStem dest.name) (pySuffix dest.name) n) ∧
    fs p = false := by
  unfold resolve_name_conflict at h
  by_cases hd : fs dest = false
  · rw [if_pos hd] at h
    cases h
    exact ⟨rfl, Or.inl rfl, hd⟩
  · rw [if_neg hd] at h
    obtain ⟨m, hm1, hm2⟩ :=
      resolveLoop_shape fs dest.dir (pyStem dest.name) (pySuffix dest.name) fuel 1 p h
    have hfree := resolveLoop_free fs dest.dir (pyStem dest.name) (pySuffix dest.name)
      fuel 1 p h
    rw [hm2]
    exact ⟨rfl, Or.inr ⟨m, hm1, rfl⟩, hm2 ▸ hfree⟩

/-- C6: given that the collision search terminates (some candidate name
is free within the fuel bound) and that exception messages are
non-empty, `move_file` returns a `MoveOutcome` rather than raising: on
success the destination is the collision-resolved path in the
destination folder, carrying either the original base name or a
suffixed `<stem>_<n><ext>` variant of it, with no entry at that path;
on failure the outcome has `success = false`, a non-empty error string,
and carries the would-be naive destination `destination_folder/name`. -/
theorem C6_move_file (fs : PyPath → Bool) (moveErr : PyPath → PyPath → Option String)
    (fuel : Nat) (source : PyPath) (destination_folder : String)
    (hterm : ∃ q, resolve_name_conflict fs fuel ⟨destination_folder, source.name⟩ = some q)
    (hmsg : ∀ s d e, moveErr s d = some e → e ≠ "") :
    ∃ r : MoveResult, move_file fs moveErr fuel source destination_folder = some r ∧
      r.source = source ∧
      r.destination.dir = destination_folder ∧
      (r.success = true →
        r.error = none ∧ fs r.destination = false ∧
        (r.destination.name = source.name ∨ ∃ n, 1 ≤ n ∧
          r.destination.name = candidateName (pyStem source.name) (pySuffix source.name) n)) ∧
      (r.success = false →
        r.destination = ⟨destination_folder, source.name⟩ ∧
        ∃ e, r.error = some e ∧ e ≠ "") := by
  obtain ⟨q, hq⟩ := hterm
  obtain ⟨hdir, hname, hfree⟩ :=
    resolve_name_conflict_shape fs fuel ⟨destination_folder, source.name⟩ q hq
  unfold move_file
  rw [hq]
  cases he : moveErr source q with
  | none =>
    refine ⟨⟨true, source, q, none⟩, ?_, rfl, hdir, fun _ => ⟨rfl, hfree, ?_⟩,
      fun hfalse => absurd hfalse (by simp)⟩
    · simp [he]
    · simpa using hname
  | some e =>
    refine ⟨⟨false, source, ⟨destination_folder, source.name⟩, some e⟩, ?_, rfl, rfl,
      fun htrue => absurd htrue (by simp), fun _ => ⟨rfl, e, rfl, hmsg source q e he⟩⟩
    simp [he]

/-- Witness for C6: an empty filesystem and a mover that always raises
`"boom"`; a failed outcome carrying the naive destination exists. -/
theorem C6_witness :
    ∃ r : MoveResult,
      move_file (fun _ => false) (fun _ _ => some "boom") 1 ⟨"/src", "a.txt"⟩ "/d" =
        some r ∧
      r.source = ⟨"/src", "a.txt"⟩ ∧
      r.destination.dir = "/d" ∧
      (r.success = true →
        r.error = none ∧ (fun _ : PyPath => false) r.destination = false ∧
        (r.destination.name = "a.txt" ∨ ∃ n, 1 ≤ n ∧
          r.destination.name = candidateName (pyStem "a.txt") (pySuffix "a.txt") n)) ∧
      (r.success = false →
        r.destination = ⟨"/d", "a.txt"⟩ ∧ ∃ e, r.error = some e ∧ e ≠ "") :=
  C6_move_file (fun _ => false) (fun _ _ => some "boom") 1 ⟨"/src", "a.txt"⟩ "/d"
    ⟨⟨"/d", "a.txt"⟩, by decide⟩
    (fun s d e he => by
      have : some "boom" = some e := he
      cases this
      decide)

/-- C8: `create_category_folder` is idempotent and total: when the
folder already exists it succeeds without touching the state; after any
successful call the folder exists as the single directory entry at
`desktop/category` and every repeated call (second, third, ...) returns
success with the state unchanged; and the failure cases — an OS-level
creation error or a non-directory entry occupying the name — return
`false` with the state unchanged instead of raising. -/
theorem C8_create_category_folder (st : FSState) (desktop_path category : String) :
    (st.kind ⟨desktop_path, category⟩ = some EntryKind.dir →
      create_category_folder st desktop_path category = (true, st)) ∧
    (∀ st', create_category_folder st desktop_path category = (true, st') →
      st'.kind ⟨desktop_path, category⟩ = some EntryKind.dir ∧
      create_category_folder st' desktop_path category = (true, st')) ∧
    (st.kind ⟨desktop_path, category⟩ = none →
      st.canCreate ⟨desktop_path, category⟩ = false →
      create_category_folder st desktop_path category = (false, st)) ∧
    (st.kind ⟨desktop_path, category⟩ = some EntryKind.file →
      create_category_folder st desktop_path category = (false, st)) := by
  refine ⟨?_, ?_, ?_, ?_⟩
  · intro h
    unfold create_category_folder
    rw [h]
  · intro st' h
    unfold create_category_folder at h
    cases hk : st.kind ⟨desktop_path, category⟩ with
    | none =>
      rw [hk] at h
      by_cases hc : st.canCreate ⟨desktop_path, category⟩ = true
      · rw [if_pos hc] at h
        have hst : st' = st.insertDir ⟨desktop_path, category⟩ := by
          simpa using (congrArg Prod.snd h).symm
        have hkind : st'.kind ⟨desktop_path, category⟩ = some EntryKind.dir := by
          rw [hst]
          unfold FSState.insertDir
          simp
        refine ⟨hkind, ?_⟩
        unfold create_category_folder
        rw [hkind]
      · rw [if_neg hc] at h
        have hff : False := by simpa using congrArg Prod.fst h
        exact hff.elim
    | some k =>
      cases k with
      | dir =>
        rw [hk] at h
        have hst : st' = st := by simpa using (congrArg Prod.snd h).symm
        rw [hst]
        refine ⟨hk, ?_⟩
        unfold create_category_folder
        rw [hk]
      | file =>
        rw [hk] at h
        have hff : False := by simpa using congrArg Prod.fst h
        exact hff.elim
  · intro hk hc
    unfold create_category_folder
    rw [hk, if_neg (by rw [hc]; exact fun hf => Bool.noConfusion hf)]
  · intro hk
    unfold create_category_folder
    rw [hk]

/-- Witness for C8: creating `Images` in an initially empty, permissive
filesystem succeeds; calling again on the resulting state succeeds and
leaves the state (with its single `Images` directory) unchanged. -/
theorem C8_witness :
    create_category_folder
      (FSState.insertDir ⟨fun _ => none, fun _ => true⟩ ⟨"/d", "Images"⟩) "/d" "Images" =
      (true, FSState.insertDir ⟨fun _ => none, fun _ => true⟩ ⟨"/d", "Images"⟩) :=
  ((C8_create_category_folder ⟨fun _ => none, fun _ => true⟩ "/d" "Images").2.1
    (FSState.insertDir ⟨fun _ => none, fun _ => true⟩ ⟨"/d", "Images"⟩) rfl).2

/-- C7 counterexample: a plain visible file whose per-item `stat` raises
(`size = none`) is NOT excluded by the exclusion predicate, yet it does
not appear in the scan results — `scan_desktop` silently skips entries
whose stat fails — refuting the claim's final clause that every
non-excluded entry appears in the scan results. -/
theorem C7_counterexample :
    should_exclude ⟨"notes.txt", false, true, some false, none⟩ = false ∧
    scan_desktop "/desk" [⟨"notes.txt", false, true, some false, none⟩] = [] := by
  constructor
  · rfl
  · rfl

/-- C7 (amended): the exclusion predicate excludes an entry iff it is a
directory, or its name is `desktop.ini` up to letter case, or the
platform flags it hidden; when the hidden check errors the entry is
treated as not hidden (fail open); and every non-excluded entry that is
a regular file whose `stat` succeeds appears in the scan results. -/
theorem C7_should_exclude (e : DirEntry) (desktop : String) (entries : List DirEntry) :
    (should_exclude e = true ↔
      (e.isDir = true ∨ pyLower e.name = "desktop.ini" ∨ e.hidden = some true)) ∧
    (e.hidden = none → e.isDir = false → pyLower e.name ≠ "desktop.ini" →
      should_exclude e = false) ∧
    (∀ sz, e ∈ entries → should_exclude e = false → e.isFile = true → e.size = some sz →
      ({ path := ⟨desktop, e.name⟩, name := e.name,
         extension := pyLower (pySuffix e.name), size := sz } : FileInfo) ∈
        scan_desktop desktop entries) := by
  refine ⟨?_, ?_, ?_⟩
  · unfold should_exclude
    by_cases hd : e.isDir
    · simp [hd]
    · rw [if_neg hd]
      by_cases hn : pyLower e.name = "desktop.ini"
      · simp [hn, hd]
      · rw [if_neg hn]
        cases hh : e.hidden with
        | none => simp [hd, hn, hh]
        | some b =>
          cases b with
          | true => simp [hd, hn, hh]
          | false => simp [hd, hn, hh]
  · intro hh hd hn
    unfold should_exclude
    rw [if_neg (by rw [hd]; exact fun hf => Bool.noConfusion hf), if_neg hn, hh]
  · intro sz hmem hex hfile hsz
    unfold scan_desktop
    rw [List.mem_filterMap]
    refine ⟨e, hmem, ?_⟩
    rw [hex]
    simp only [Bool.false_eq_true, if_false]
    rw [hfile]
    simp only [if_true]
    rw [hsz]

/-- Witness for the amended C7: a visible jpeg with a successful stat
lands in the scan results. -/
theorem C7_witness :
    ({ path := ⟨"/desk", "pic.JPG"⟩, name := "pic.JPG",
       extension := pyLower (pySuffix "pic.JPG"), size := 7 } : FileInfo) ∈
      scan_desktop "/desk" [⟨"pic.JPG", false, true, some false, some 7⟩] :=
  (C7_should_exclude ⟨"pic.JPG", false, true, some false, some 7⟩ "/desk"
    [⟨"pic.JPG", false, true, some false, some 7⟩]).2.2 7
    (List.mem_singleton.mpr rfl) rfl rfl rfl

end DesktopCleaner
